import Mathlib

/-
Shallow embedding of `core/client/db/src/changes_tries_storage.rs`
(DB-backed changes tries storage) and verification of its specification.

Hashes and database keys are modelled as naturals, byte strings as lists
of naturals.  External collaborators that live outside this file's source
(the header-lookup utilities, the auxiliary cache, and the digest-aware
pruning algorithms of the state-machine crate) are modelled as abstract
function fields of the storage record, as the spec describes them.
-/

namespace Substrate

/-- Raw database value: a byte string, modelled as a list of naturals. -/
abbrev DBValue := List Nat

/-- Changes trie configuration (primitives crate): digest interval and
digest levels, both u32 values. -/
structure ChangesTrieConfiguration where
  digest_interval : Nat
  digest_levels : Nat
deriving DecidableEq, Repr

/-- A tagged digest log entry of a block header.  Only the two tags read
by the changes-tries storage are distinguished; everything else is
`other`. -/
inductive DigestItem where
  | changesTrieRoot (root : Nat)
  | changesTrieSignal (newConfig : Option ChangesTrieConfiguration)
  | other (payload : Nat)
deriving DecidableEq, Repr

/-- `DigestItem::as_changes_trie_root`: the root carried by a
changes-trie-root digest entry, if this entry is one. -/
def DigestItem.as_changes_trie_root : DigestItem → Option Nat
  | .changesTrieRoot r => some r
  | _ => none

/-- `DigestItem::as_changes_trie_signal` composed with
`ChangesTrieSignal::as_new_configuration`: the configuration payload of a
changes-trie signal entry, if this entry is one. -/
def DigestItem.as_changes_trie_signal : DigestItem → Option (Option ChangesTrieConfiguration)
  | .changesTrieSignal c => some c
  | _ => none

/-- Block header: number, parent hash, own hash, and the digest log.
The hash is opaque, so it is carried as a field (in the source it is
computed by `Header::hash()`). -/
structure Header where
  number : Nat
  parent_hash : Nat
  hash : Nat
  digest : List DigestItem
deriving DecidableEq, Repr

/-- `header.digest().log(DigestItem::as_changes_trie_root)`: the first
changes-trie root recorded in the header's digest. -/
def Header.changes_trie_root (h : Header) : Option Nat :=
  h.digest.findSome? DigestItem.as_changes_trie_root

/-- `extract_new_configuration` (changes_tries_storage.rs, lines 37-41):
extract the new changes trie configuration, if available, from the
header's digest. -/
def extract_new_configuration (header : Header) : Option (Option ChangesTrieConfiguration) :=
  header.digest.findSome? DigestItem.as_changes_trie_signal

/-- A staged operation of a kvdb `DBTransaction`. -/
inductive DBOp where
  | put (col : Option Nat) (key : Nat) (value : DBValue)
  | delete (col : Option Nat) (key : Nat)
deriving DecidableEq, Repr

/-- The column/key pair an operation touches. -/
def DBOp.colKey : DBOp → Option Nat × Nat
  | .put c k _ => (c, k)
  | .delete c k => (c, k)

/-- A kvdb `DBTransaction`: the ordered list of staged operations. -/
structure DBTransaction where
  ops : List DBOp
deriving DecidableEq, Repr

/-- Snapshot of the column-oriented key-value database, as an association
list from (column, key) to value.  Later entries are shadowed by earlier
ones, and mutation keeps this discipline. -/
structure KeyValueDB where
  entries : List ((Option Nat × Nat) × DBValue)
deriving DecidableEq, Repr

/-- Raw read of the database: first entry for the column/key pair. -/
def KeyValueDB.get (db : KeyValueDB) (col : Option Nat) (key : Nat) : Option DBValue :=
  (db.entries.find? (fun e => decide (e.1 = (col, key)))).map (fun e => e.2)

/-- Apply one staged operation to a database snapshot. -/
def KeyValueDB.applyOp (db : KeyValueDB) : DBOp → KeyValueDB
  | .put col key value => ⟨((col, key), value) :: db.entries⟩
  | .delete col key => ⟨db.entries.filter (fun e => decide (e.1 ≠ (col, key)))⟩

/-- Apply a transaction's operations, in staging order. -/
def KeyValueDB.applyTx (db : KeyValueDB) (ops : List DBOp) : KeyValueDB :=
  ops.foldl KeyValueDB.applyOp db

/-- In-memory changes trie (`trie::MemoryDB<Blake2Hasher>`), drained on
commit: a map from node hash to (node value, reference count), with
pairwise distinct keys. -/
structure MemoryDB where
  entries : List (Nat × DBValue × Int)
deriving DecidableEq, Repr

/-- Opaque cache transaction operations (`DbCacheTransactionOps`),
returned by a cache transition and later fed to `post_commit`. -/
abbrev DbCacheTransactionOps := List Nat

/-- Entry type of a cache transition (`cache::EntryType`). -/
inductive CacheEntryType where
  | Final
  | NonFinal
deriving DecidableEq, Repr

/-- Structured client error, surfaced on the commit path. -/
inductive ClientError where
  | Backend (msg : String)
  | UnknownBlock (msg : String)
deriving DecidableEq, Repr

/-- `ComplexBlockId`: the (hash, number) pair identifying a block in the
block tree. -/
structure ComplexBlockId where
  hash : Nat
  number : Nat
deriving DecidableEq, Repr

/-- `state_machine::ChangesTrieAnchorBlockId`: the (hash, number) anchor
of a historical query. -/
structure ChangesTrieAnchorBlockId where
  hash : Nat
  number : Nat
deriving DecidableEq, Repr

/-- `BlockId`: lookup key for a header, by hash or by (canonical)
number. -/
inductive BlockId where
  | Hash (h : Nat)
  | Number (n : Nat)
deriving DecidableEq, Repr

/-- Modelled from the spec: canonical (SCALE) little-endian four-byte
encoding of a u32, from the external parity_codec crate (not under
src). -/
def encodeU32 (n : Nat) : List Nat :=
  [n % 256, n / 256 % 256, n / 65536 % 256, n / 16777216 % 256]

/-- Modelled from the spec: canonical encoding of a
`ChangesTrieConfiguration` (two u32 fields in order), from the external
parity_codec crate (not under src). -/
def ChangesTrieConfiguration.encode (c : ChangesTrieConfiguration) : List Nat :=
  encodeU32 c.digest_interval ++ encodeU32 c.digest_levels

/-- Modelled from the spec: canonical encoding of an
`Option<ChangesTrieConfiguration>` (0 for None, 1 followed by the payload
for Some), from the external parity_codec crate (not under src). -/
def encodeOptionConfig : Option ChangesTrieConfiguration → List Nat
  | none => [0]
  | some c => 1 :: c.encode

/-- Modelled from the spec: the well-known cache key
`well_known_cache_keys::CHANGES_TRIE_CONFIG` (not under src). -/
def CHANGES_TRIE_CONFIG : String := "changes_trie_config"

/-- `DbChangesTrieStorage`: the DB-backed changes tries storage.  The
fields `header_by_number` / `header_by_hash` model the external
`utils::read_header` lookups (by canonical number, resp. by hash) through
the key-lookup and header columns; `cache_on_block_insert` models the
external cache transition `DbCacheTransaction::on_block_insert` (its
result is the list of puts it stages on the cache column, paired with the
`DbCacheTransactionOps` handed back to the caller);
`prune_changes_tries_alg` and `oldest_non_pruned_alg` model the external
`state_machine::prune_changes_tries` (as the list of node keys it selects
for deletion) and `state_machine::oldest_non_pruned_changes_trie`, each
taking the configuration-activation block, the configuration, the
retention bound, and the anchor (resp. the best finalized number).
`finalized_number` is the field of the shared `Meta` record that this
module reads. -/
structure DbChangesTrieStorage where
  db : KeyValueDB
  changes_tries_column : Option Nat
  key_lookup_column : Option Nat
  header_column : Option Nat
  cache_column : Option Nat
  finalized_number : Nat
  min_blocks_to_keep : Option Nat
  header_by_number : Nat → Option Header
  header_by_hash : Nat → Option Header
  cache_on_block_insert : ComplexBlockId → ComplexBlockId → List (String × List Nat) →
    CacheEntryType → Except ClientError (List (Nat × DBValue) × DbCacheTransactionOps)
  prune_changes_tries_alg : Nat → ChangesTrieConfiguration → Nat →
    ChangesTrieAnchorBlockId → List Nat
  oldest_non_pruned_alg : Nat → ChangesTrieConfiguration → Nat → Nat → Nat

/-- `utils::read_header` dispatched on the block id. -/
def readHeader (s : DbChangesTrieStorage) : BlockId → Option Header
  | .Hash h => s.header_by_hash h
  | .Number n => s.header_by_number n

/-- Modelled from the spec: `utils::require_header` (not under src) reads
the header and maps absence to an unknown-block error; `root` converts
the error to a string. -/
def requireHeader (s : DbChangesTrieStorage) (id : BlockId) : Except String Header :=
  match readHeader s id with
  | some h => Except.ok h
  | none =>
    Except.error (match id with
      | .Hash h => "UnknownBlock: header with hash " ++ toString h
      | .Number n => "UnknownBlock: header with number " ++ toString n)

/-- The parent-traversal loop of `root` (changes_tries_storage.rs, lines
221-228): starting from `hash`, read the header by hash and step to its
parent, `steps` times.  The fuel `steps` equals `anchor.number - block`,
which is exactly the number of iterations of the source's `while
current_num != block` loop. -/
def walkParents (s : DbChangesTrieStorage) : Nat → Nat → Except String Nat
  | 0, hash => Except.ok hash
  | steps + 1, hash =>
    match requireHeader s (BlockId.Hash hash) with
    | Except.error e => Except.error e
    | Except.ok hdr => walkParents s steps hdr.parent_hash

/-- The block-id resolution step of `root` (changes_tries_storage.rs,
lines 203-232): canonical number lookup when the target is finalized or
the anchor is canonical, parent traversal otherwise. -/
def resolveBlockId (s : DbChangesTrieStorage) (anchor : ChangesTrieAnchorBlockId)
    (block : Nat) : Except String BlockId :=
  if block ≤ s.finalized_number then
    Except.ok (BlockId.Number block)
  else
    match requireHeader s (BlockId.Number anchor.number) with
    | Except.error e => Except.error e
    | Except.ok anchorHeader =>
      if anchorHeader.hash = anchor.hash then
        Except.ok (BlockId.Number block)
      else
        match walkParents s (anchor.number - block) anchor.hash with
        | Except.error e => Except.error e
        | Except.ok currentHash => Except.ok (BlockId.Hash currentHash)

/-- `ChangesTrieRootsStorage::root` (changes_tries_storage.rs, lines
193-238): changes-trie root at block number `block`, resolved relative to
`anchor`. -/
def root (s : DbChangesTrieStorage) (anchor : ChangesTrieAnchorBlockId)
    (block : Nat) : Except String (Option Nat) :=
  if anchor.number < block then
    Except.error ("Can\x27t get changes trie root at " ++ toString block ++
      " using anchor at " ++ toString anchor.number)
  else
    match resolveBlockId s anchor block with
    | Except.error e => Except.error e
    | Except.ok blockId =>
      match requireHeader s blockId with
      | Except.error e => Except.error e
      | Except.ok hdr => Except.ok hdr.changes_trie_root

/-- `ChangesTrieRootsStorage::build_anchor` (changes_tries_storage.rs,
lines 179-191): read the header by hash and build the anchor from it. -/
def build_anchor (s : DbChangesTrieStorage) (hash : Nat) :
    Except String ChangesTrieAnchorBlockId :=
  match s.header_by_hash hash with
  | some header => Except.ok { hash := hash, number := header.number }
  | none => Except.error ("Unknown header: " ++ toString hash)

/-- `ChangesTrieStorage::get` (changes_tries_storage.rs, lines 246-249):
raw read of the changes-tries column; the prefix argument `p` is
unused. -/
def DbChangesTrieStorage.get (s : DbChangesTrieStorage) (key : Nat) (p : List Nat) :
    Except String (Option DBValue) :=
  Except.ok (s.db.get s.changes_tries_column key)

/-- `DbChangesTrieStorage::commit` (changes_tries_storage.rs, lines
89-118): drain the trie map into puts on the changes-tries column, then,
when a new configuration is signalled, stage the cache transition and
return its ops.  Returns the transaction as mutated so far together with
the result. -/
def commit (s : DbChangesTrieStorage) (tx : DBTransaction) (changes_trie : MemoryDB)
    (parent_block block : ComplexBlockId) (finalized : Bool)
    (new_configuration : Option (Option ChangesTrieConfiguration)) :
    DBTransaction × Except ClientError (Option DbCacheTransactionOps) :=
  let tx1 : DBTransaction :=
    ⟨tx.ops ++ changes_trie.entries.map (fun e => DBOp.put s.changes_tries_column e.1 e.2.1)⟩
  match new_configuration with
  | some inner =>
    let cache_at : List (String × List Nat) := [(CHANGES_TRIE_CONFIG, encodeOptionConfig inner)]
    match s.cache_on_block_insert parent_block block cache_at
        (if finalized then CacheEntryType.Final else CacheEntryType.NonFinal) with
    | Except.ok res =>
      (⟨tx1.ops ++ res.1.map (fun kv => DBOp.put s.cache_column kv.1 kv.2)⟩,
        Except.ok (some res.2))
    | Except.error e => (tx1, Except.error e)
  | none => (tx1, Except.ok none)

/-- `DbChangesTrieStorage::prune` (changes_tries_storage.rs, lines
126-149): never prune on archive nodes; otherwise delegate to the
external pruning algorithm, passing the zero block as the configuration
activation block, and stage a delete on the changes-tries column for
every node key it selects. -/
def prune (s : DbChangesTrieStorage) (config : ChangesTrieConfiguration)
    (tx : DBTransaction) (block_hash : Nat) (block_num : Nat) : DBTransaction :=
  match s.min_blocks_to_keep with
  | none => tx
  | some min_blocks_to_keep =>
    ⟨tx.ops ++ (s.prune_changes_tries_alg 0 config min_blocks_to_keep
        { hash := block_hash, number := block_num }).map
      (fun node => DBOp.delete s.changes_tries_column node)⟩

/-- `PrunableStateChangesTrieStorage::oldest_changes_trie_block`
(changes_tries_storage.rs, lines 157-171): delegate to the external
algorithm with the zero block as activation block; `1` on archive
nodes. -/
def oldest_changes_trie_block (s : DbChangesTrieStorage)
    (config : ChangesTrieConfiguration) (best_finalized_block : Nat) : Nat :=
  match s.min_blocks_to_keep with
  | some min_blocks_to_keep =>
    s.oldest_non_pruned_alg 0 config min_blocks_to_keep best_finalized_block
  | none => 1

/-- Canonical chain used by the concrete evaluations: block `n` has hash
`100 + n`, parent hash `99 + n`, and changes-trie root `1000 + n` in its
digest. -/
def canonHeader (n : Nat) : Header :=
  { number := n
    parent_hash := if n = 0 then 0 else 99 + n
    hash := 100 + n
    digest := [DigestItem.changesTrieRoot (1000 + n)] }

/-- Side-fork header at height 3: child of canonical block 2. -/
def forkHeader3 : Header :=
  { number := 3, parent_hash := 102, hash := 203
    digest := [DigestItem.changesTrieRoot 2003] }

/-- Side-fork header at height 4: child of the side-fork block at 3. -/
def forkHeader4 : Header :=
  { number := 4, parent_hash := 203, hash := 204
    digest := [DigestItem.changesTrieRoot 2004] }

/-- Concrete storage used by the evaluations: canonical chain 0..4,
a side fork at heights 3 and 4, finalized number 2, and concrete
stand-ins for the external cache and pruning algorithms. -/
def sampleStorage : DbChangesTrieStorage :=
  { db := ⟨[((some 1, 55), [7])]⟩
    changes_tries_column := some 1
    key_lookup_column := some 2
    header_column := some 3
    cache_column := some 4
    finalized_number := 2
    min_blocks_to_keep := some 8
    header_by_number := fun n => if n ≤ 4 then some (canonHeader n) else none
    header_by_hash := fun h =>
      if 100 ≤ h ∧ h ≤ 104 then some (canonHeader (h - 100))
      else if h = 203 then some forkHeader3
      else if h = 204 then some forkHeader4
      else none
    cache_on_block_insert := fun _ _ m _ =>
      Except.ok ([(777, (m.headD ("", [])).2)], [42])
    prune_changes_tries_alg := fun act cfg keep a =>
      [act + a.number, cfg.digest_interval + keep]
    oldest_non_pruned_alg := fun act cfg keep best =>
      act + cfg.digest_levels + keep + best }

/-- Claim C1: for every anchor `a` and target `b` with `b ≤ a.number` and
`b ≤ finalized_number`, `root a b` returns the changes-trie root recorded
in the digest of the canonical header at number `b`, regardless of the
anchor's fork (no hypothesis constrains `a.hash`). -/
theorem root_finalized_returns_canonical_root (s : DbChangesTrieStorage)
    (a : ChangesTrieAnchorBlockId) (b : Nat) (hdr : Header)
    (hb : b ≤ a.number) (hf : b ≤ s.finalized_number)
    (hhdr : s.header_by_number b = some hdr) :
    root s a b = Except.ok hdr.changes_trie_root := by
  simp only [root, resolveBlockId, requireHeader, readHeader]
  rw [if_neg (Nat.not_lt.mpr hb), if_pos hf]
  simp [hhdr]

theorem root_finalized_returns_canonical_root_witness :
    1 ≤ (4 : Nat) ∧ 1 ≤ sampleStorage.finalized_number ∧
    sampleStorage.header_by_number 1 = some (canonHeader 1) ∧
    root sampleStorage ⟨204, 4⟩ 1 = Except.ok (canonHeader 1).changes_trie_root :=
  ⟨by decide, by decide, by decide,
    root_finalized_returns_canonical_root sampleStorage ⟨204, 4⟩ 1 (canonHeader 1)
      (by decide) (by decide) (by decide)⟩

/-- Claim C2: for an anchor on a side fork (the canonical header at its
height has a different hash) and a target `b` with
`finalized_number < b ≤ a.number`, `root a b` returns the root recorded
in the header reached by following exactly `a.number - b` parent-hash
pointers from the anchor. -/
theorem root_side_fork_walks_parents (s : DbChangesTrieStorage)
    (a : ChangesTrieAnchorBlockId) (b : Nat) (anchorHeader hdr : Header) (target : Nat)
    (hb : b ≤ a.number) (hf : s.finalized_number < b)
    (hanchor : s.header_by_number a.number = some anchorHeader)
    (hside : anchorHeader.hash ≠ a.hash)
    (hwalk : walkParents s (a.number - b) a.hash = Except.ok target)
    (hhdr : s.header_by_hash target = some hdr) :
    root s a b = Except.ok hdr.changes_trie_root := by
  simp only [root, resolveBlockId, requireHeader, readHeader]
  rw [if_neg (Nat.not_lt.mpr hb), if_neg (Nat.not_le.mpr hf)]
  simp [hanchor, hside, hwalk, hhdr]

theorem root_side_fork_walks_parents_witness :
    3 ≤ (4 : Nat) ∧ sampleStorage.finalized_number < 3 ∧
    sampleStorage.header_by_number 4 = some (canonHeader 4) ∧
    (canonHeader 4).hash ≠ 204 ∧
    walkParents sampleStorage 1 204 = Except.ok 203 ∧
    sampleStorage.header_by_hash 203 = some forkHeader3 ∧
    root sampleStorage ⟨204, 4⟩ 3 = Except.ok (some 2003) :=
  ⟨by decide, by decide, by decide, by decide, by rfl, by decide,
    root_side_fork_walks_parents sampleStorage ⟨204, 4⟩ 3 (canonHeader 4) forkHeader3 203
      (by decide) (by decide) (by decide) (by decide) (by rfl) (by decide)⟩

/-- Claim C3: for every anchor `a` and target `b > a.number`, `root a b`
returns an error whose message contains
`Can\x27t get changes trie root at b`; the precondition is checked before
any lookup, so the result does not depend on any stored header. -/
theorem root_future_block_errors (s : DbChangesTrieStorage)
    (a : ChangesTrieAnchorBlockId) (b : Nat) (hb : a.number < b) :
    root s a b = Except.error (("Can\x27t get changes trie root at " ++ toString b) ++
      (" using anchor at " ++ toString a.number)) ∧
    ∃ tail, root s a b =
      Except.error (("Can\x27t get changes trie root at " ++ toString b) ++ tail) := by
  constructor
  · simp only [root, if_pos hb, String.append_assoc]
  · exact ⟨" using anchor at " ++ toString a.number,
      by simp only [root, if_pos hb, String.append_assoc]⟩

theorem root_future_block_errors_witness :
    (4 : Nat) < 5 ∧
    root sampleStorage ⟨204, 4⟩ 5 =
      Except.error (("Can\x27t get changes trie root at " ++ toString (5 : Nat)) ++
        (" using anchor at " ++ toString (4 : Nat))) :=
  ⟨by decide, (root_future_block_errors sampleStorage ⟨204, 4⟩ 5 (by decide)).1⟩

/-- Claim C10: when the target is at or below the finalized number, the
result of `root` does not depend on the anchor's hash: two anchors with
the same number (one possibly dangling) yield the same result, because
the anchor's header is never read on this path. -/
theorem root_finalized_independent_of_anchor_hash (s : DbChangesTrieStorage)
    (a1 a2 : ChangesTrieAnchorBlockId) (b : Nat)
    (hn : a1.number = a2.number) (hb : b ≤ a1.number) (hf : b ≤ s.finalized_number) :
    root s a1 b = root s a2 b := by
  have h1 : ¬ (a1.number < b) := Nat.not_lt.mpr hb
  have h2 : ¬ (a2.number < b) := hn ▸ h1
  simp only [root, resolveBlockId]
  rw [if_neg h1, if_neg h2, if_pos hf, if_pos hf]

theorem root_finalized_independent_of_anchor_hash_witness :
    (⟨204, 4⟩ : ChangesTrieAnchorBlockId).number =
      (⟨999, 4⟩ : ChangesTrieAnchorBlockId).number ∧
    1 ≤ (4 : Nat) ∧ 1 ≤ sampleStorage.finalized_number ∧
    root sampleStorage ⟨204, 4⟩ 1 = root sampleStorage ⟨999, 4⟩ 1 :=
  ⟨by decide, by decide, by decide,
    root_finalized_independent_of_anchor_hash sampleStorage ⟨204, 4⟩ ⟨999, 4⟩ 1
      (by decide) (by decide) (by decide)⟩

/-- Claim C5: `commit` returns `Ok none` exactly when no new
configuration is signalled; when one is, it stages the cache transition
`on_block_insert(parent_block, block, \x7bCHANGES_TRIE_CONFIG → encode
inner\x7d, Final|NonFinal)` and returns `Ok (some ops)` on cache success
and the cache's error on failure. -/
theorem commit_configuration_signal (s : DbChangesTrieStorage) (tx : DBTransaction)
    (trie : MemoryDB) (parent_block block : ComplexBlockId) (finalized : Bool) :
    ((commit s tx trie parent_block block finalized none).2 = Except.ok none) ∧
    (∀ nc, (commit s tx trie parent_block block finalized nc).2 = Except.ok none →
      nc = none) ∧
    (∀ inner, (commit s tx trie parent_block block finalized (some inner)).2 =
      match s.cache_on_block_insert parent_block block
          [(CHANGES_TRIE_CONFIG, encodeOptionConfig inner)]
          (if finalized then CacheEntryType.Final else CacheEntryType.NonFinal) with
        | Except.ok res => Except.ok (some res.2)
        | Except.error e => Except.error e) := by
  refine ⟨rfl, ?_, ?_⟩
  · intro nc hnc
    cases nc with
    | none => rfl
    | some inner =>
      exfalso
      simp only [commit] at hnc
      cases hc : s.cache_on_block_insert parent_block block
          [(CHANGES_TRIE_CONFIG, encodeOptionConfig inner)]
          (if finalized then CacheEntryType.Final else CacheEntryType.NonFinal) with
      | ok res => rw [hc] at hnc; simp at hnc
      | error e => rw [hc] at hnc; simp at hnc
  · intro inner
    simp only [commit]
    cases hc : s.cache_on_block_insert parent_block block
        [(CHANGES_TRIE_CONFIG, encodeOptionConfig inner)]
        (if finalized then CacheEntryType.Final else CacheEntryType.NonFinal) with
    | ok res => simp [hc]
    | error e => simp [hc]

theorem commit_configuration_signal_witness :
    (commit sampleStorage ⟨[]⟩ ⟨[]⟩ ⟨100, 0⟩ ⟨101, 1⟩ true none).2 = Except.ok none ∧
    (commit sampleStorage ⟨[]⟩ ⟨[]⟩ ⟨100, 0⟩ ⟨101, 1⟩ true
      (some (some ⟨4, 1⟩))).2 = Except.ok (some [42]) := by
  have h := commit_configuration_signal sampleStorage ⟨[]⟩ ⟨[]⟩ ⟨100, 0⟩ ⟨101, 1⟩ true
  refine ⟨h.1, ?_⟩
  rw [h.2.2 (some ⟨4, 1⟩)]
  rfl

/-- Claim C6: under the archive retention policy (`min_blocks_to_keep`
is none), `prune` returns immediately for every configuration,
transaction and tip, staging no deletion: the transaction is returned
unchanged. -/
theorem prune_archive_is_noop (s : DbChangesTrieStorage)
    (config : ChangesTrieConfiguration) (tx : DBTransaction)
    (block_hash block_num : Nat) (h : s.min_blocks_to_keep = none) :
    prune s config tx block_hash block_num = tx := by
  simp only [prune, h]

theorem prune_archive_is_noop_witness :
    ({ sampleStorage with min_blocks_to_keep := none } :
      DbChangesTrieStorage).min_blocks_to_keep = none ∧
    prune { sampleStorage with min_blocks_to_keep := none } ⟨2, 2⟩
      ⟨[DBOp.put (some 1) 9 [1]]⟩ 104 4 = ⟨[DBOp.put (some 1) 9 [1]]⟩ :=
  ⟨rfl, prune_archive_is_noop { sampleStorage with min_blocks_to_keep := none }
    ⟨2, 2⟩ ⟨[DBOp.put (some 1) 9 [1]]⟩ 104 4 rfl⟩

/-- Claim C7: under a keep retention policy, both `prune` and
`oldest_changes_trie_block` pass block number zero as the
configuration-activation argument to the external algorithm: the staged
deletions and the returned number are those of the algorithm evaluated
at activation block 0, and the results are invariant under changing the
algorithm anywhere except at activation block 0. -/
theorem prune_oldest_pass_zero_activation (s : DbChangesTrieStorage)
    (config : ChangesTrieConfiguration) (tx : DBTransaction)
    (block_hash block_num best k : Nat) (h : s.min_blocks_to_keep = some k) :
    prune s config tx block_hash block_num =
      ⟨tx.ops ++ (s.prune_changes_tries_alg 0 config k
          { hash := block_hash, number := block_num }).map
        (fun node => DBOp.delete s.changes_tries_column node)⟩ ∧
    oldest_changes_trie_block s config best = s.oldest_non_pruned_alg 0 config k best ∧
    (∀ alg2 : Nat → ChangesTrieConfiguration → Nat → ChangesTrieAnchorBlockId → List Nat,
      alg2 0 = s.prune_changes_tries_alg 0 →
      prune { s with prune_changes_tries_alg := alg2 } config tx block_hash block_num =
        prune s config tx block_hash block_num) ∧
    (∀ alg3 : Nat → ChangesTrieConfiguration → Nat → Nat → Nat,
      alg3 0 = s.oldest_non_pruned_alg 0 →
      oldest_changes_trie_block { s with oldest_non_pruned_alg := alg3 } config best =
        oldest_changes_trie_block s config best) := by
  refine ⟨?_, ?_, ?_, ?_⟩
  · simp only [prune, h]
  · simp only [oldest_changes_trie_block, h]
  · intro alg2 halg
    simp only [prune, h, halg]
  · intro alg3 halg
    simp only [oldest_changes_trie_block, h, halg]

theorem prune_oldest_pass_zero_activation_witness :
    sampleStorage.min_blocks_to_keep = some 8 ∧
    prune sampleStorage ⟨2, 2⟩ ⟨[]⟩ 104 4 =
      ⟨(sampleStorage.prune_changes_tries_alg 0 ⟨2, 2⟩ 8
          { hash := 104, number := 4 }).map
        (fun node => DBOp.delete sampleStorage.changes_tries_column node)⟩ ∧
    oldest_changes_trie_block sampleStorage ⟨2, 2⟩ 40 =
      sampleStorage.oldest_non_pruned_alg 0 ⟨2, 2⟩ 8 40 := by
  have h := prune_oldest_pass_zero_activation sampleStorage ⟨2, 2⟩ ⟨[]⟩ 104 4 40 8 rfl
  exact ⟨rfl, by rw [h.1]; rfl, h.2.1⟩

/-- Claim C8: `build_anchor hash` returns the anchor built from the
stored header's number when a header with this hash exists, and the
error `Unknown header: hash` when none does. -/
theorem build_anchor_reads_header (s : DbChangesTrieStorage) (hash : Nat) :
    (∀ hdr, s.header_by_hash hash = some hdr →
      build_anchor s hash = Except.ok { hash := hash, number := hdr.number }) ∧
    (s.header_by_hash hash = none →
      build_anchor s hash = Except.error ("Unknown header: " ++ toString hash)) := by
  constructor
  · intro hdr hhdr
    simp only [build_anchor, hhdr]
  · intro hnone
    simp only [build_anchor, hnone]

theorem build_anchor_reads_header_witness :
    sampleStorage.header_by_hash 203 = some forkHeader3 ∧
    build_anchor sampleStorage 203 = Except.ok { hash := 203, number := 3 } ∧
    sampleStorage.header_by_hash 999 = none ∧
    build_anchor sampleStorage 999 =
      Except.error ("Unknown header: " ++ toString (999 : Nat)) :=
  ⟨by decide, (build_anchor_reads_header sampleStorage 203).1 forkHeader3 (by decide),
    by decide, (build_anchor_reads_header sampleStorage 999).2 (by decide)⟩

/-- Claim C9: `get key p` is the raw lookup of `key` in the
changes-tries column wrapped in `Ok`: the prefix argument is ignored
(any two prefixes give the same result) and an absent key yields
`Ok none`, not an error. -/
theorem get_ignores_prefix_arg (s : DbChangesTrieStorage) (key : Nat) :
    (∀ p q : List Nat, DbChangesTrieStorage.get s key p = DbChangesTrieStorage.get s key q) ∧
    (∀ p : List Nat, DbChangesTrieStorage.get s key p =
      Except.ok (s.db.get s.changes_tries_column key)) ∧
    (s.db.get s.changes_tries_column key = none →
      ∀ p : List Nat, DbChangesTrieStorage.get s key p = Except.ok none) := by
  refine ⟨fun p q => rfl, fun p => rfl, fun hnone p => ?_⟩
  simp only [DbChangesTrieStorage.get, hnone]

theorem get_ignores_prefix_arg_witness :
    DbChangesTrieStorage.get sampleStorage 55 [1, 2] =
      DbChangesTrieStorage.get sampleStorage 55 [] ∧
    DbChangesTrieStorage.get sampleStorage 55 [9] = Except.ok (some [7]) ∧
    sampleStorage.db.get sampleStorage.changes_tries_column 77 = none ∧
    DbChangesTrieStorage.get sampleStorage 77 [3] = Except.ok none := by
  have h := get_ignores_prefix_arg sampleStorage 55
  have h2 := get_ignores_prefix_arg sampleStorage 77
  exact ⟨h.1 [1, 2] [], by rw [h.2.1 [9]]; rfl, by decide, h2.2.2 (by decide) [3]⟩

/-- Filtering on a predicate implied by the search predicate does not
change the first match. -/
theorem find?_filter_of_imp {α : Type} (p q : α → Bool) (l : List α)
    (h : ∀ a, p a = true → q a = true) :
    (l.filter q).find? p = l.find? p := by
  induction l with
  | nil => rfl
  | cons a l ih =>
    by_cases hq : q a = true
    · rw [List.filter_cons_of_pos hq]
      by_cases hp : p a = true
      · rw [List.find?_cons_of_pos _ hp, List.find?_cons_of_pos _ hp]
      · rw [List.find?_cons_of_neg _ hp, List.find?_cons_of_neg _ hp, ih]
    · have hp : ¬ p a = true := fun hpa => hq (h a hpa)
      rw [List.filter_cons_of_neg hq, List.find?_cons_of_neg _ hp, ih]

/-- An operation on a different column/key pair does not change a raw
read. -/
theorem get_applyOp_ne (db : KeyValueDB) (op : DBOp) (c : Option Nat) (k : Nat)
    (h : op.colKey ≠ (c, k)) : (db.applyOp op).get c k = db.get c k := by
  cases op with
  | put c2 k2 v =>
    have hne : ((c2, k2) : Option Nat × Nat) ≠ (c, k) := h
    simp only [KeyValueDB.applyOp, KeyValueDB.get]
    rw [List.find?_cons_of_neg]
    simp [hne]
  | delete c2 k2 =>
    have hne : ((c2, k2) : Option Nat × Nat) ≠ (c, k) := h
    simp only [KeyValueDB.applyOp, KeyValueDB.get]
    rw [find?_filter_of_imp]
    intro e he
    simp only [decide_eq_true_eq] at he ⊢
    rw [he]
    exact fun hcontra => hne hcontra.symm

/-- A list of operations none of which touches the column/key pair does
not change a raw read. -/
theorem get_applyTx_not_touched (c : Option Nat) (k : Nat) :
    ∀ (ops : List DBOp) (db : KeyValueDB), (∀ op ∈ ops, op.colKey ≠ (c, k)) →
      (db.applyTx ops).get c k = db.get c k := by
  intro ops
  induction ops with
  | nil => intro db _; rfl
  | cons op rest ih =>
    intro db h
    have step : KeyValueDB.applyTx db (op :: rest) =
        KeyValueDB.applyTx (db.applyOp op) rest := rfl
    rw [step, ih (db.applyOp op) (fun o ho => h o (List.mem_cons_of_mem _ ho)),
      get_applyOp_ne db op c k (h op (List.mem_cons_self _ _))]

/-- A put is immediately visible to a raw read of its column/key. -/
theorem get_applyOp_put (db : KeyValueDB) (c : Option Nat) (k : Nat) (v : DBValue) :
    (db.applyOp (DBOp.put c k v)).get c k = some v := by
  simp [KeyValueDB.applyOp, KeyValueDB.get, List.find?]

/-- Applying a concatenation of operation lists is sequential
application. -/
theorem applyTx_append (db : KeyValueDB) (l1 l2 : List DBOp) :
    db.applyTx (l1 ++ l2) = (db.applyTx l1).applyTx l2 :=
  List.foldl_append _ _ _ _

/-- Shape of the transaction staged by `commit`: the caller's operations,
then one put on the changes-tries column per trie node in order, then
only puts on the cache column. -/
theorem commit_tx_ops_shape (s : DbChangesTrieStorage) (tx : DBTransaction)
    (trie : MemoryDB) (parent_block block : ComplexBlockId) (finalized : Bool)
    (nc : Option (Option ChangesTrieConfiguration)) :
    ∃ rest : List DBOp,
      (commit s tx trie parent_block block finalized nc).1.ops =
        tx.ops ++ trie.entries.map (fun e => DBOp.put s.changes_tries_column e.1 e.2.1) ++
          rest ∧
      ∀ op ∈ rest, ∃ ck cv, op = DBOp.put s.cache_column ck cv := by
  cases nc with
  | none => exact ⟨[], by simp [commit], by simp⟩
  | some inner =>
    simp only [commit]
    cases hc : s.cache_on_block_insert parent_block block
        [(CHANGES_TRIE_CONFIG, encodeOptionConfig inner)]
        (if finalized then CacheEntryType.Final else CacheEntryType.NonFinal) with
    | ok res =>
      refine ⟨res.1.map (fun kv => DBOp.put s.cache_column kv.1 kv.2), by simp, ?_⟩
      intro op hop
      simp only [List.mem_map] at hop
      obtain ⟨kv, _, hkv⟩ := hop
      exact ⟨kv.1, kv.2, hkv.symm⟩
    | error e => exact ⟨[], by simp, by simp⟩

/-- Claim C4: `commit` stages a put of every (key, value) pair of the
supplied trie map into the changes-tries column, so that after the
transaction is applied to the KV store, `get` returns the value of every
committed node (for any prefix). -/
theorem commit_stages_all_trie_nodes (s : DbChangesTrieStorage) (tx : DBTransaction)
    (trie : MemoryDB) (parent_block block : ComplexBlockId) (finalized : Bool)
    (nc : Option (Option ChangesTrieConfiguration))
    (hnodup : (trie.entries.map (fun e => e.1)).Nodup)
    (hcol : s.cache_column ≠ s.changes_tries_column)
    (k : Nat) (v : DBValue) (rc : Int) (hmem : (k, v, rc) ∈ trie.entries) :
    DBOp.put s.changes_tries_column k v ∈
      (commit s tx trie parent_block block finalized nc).1.ops ∧
    ∀ p : List Nat,
      DbChangesTrieStorage.get
        { s with db := s.db.applyTx (commit s tx trie parent_block block finalized nc).1.ops }
        k p = Except.ok (some v) := by
  obtain ⟨rest, hshape, hrest⟩ := commit_tx_ops_shape s tx trie parent_block block finalized nc
  obtain ⟨l1, l2, hsplit⟩ := List.append_of_mem hmem
  constructor
  · rw [hshape]
    exact List.mem_append_left _ (List.mem_append_right _
      (List.mem_map.mpr ⟨(k, v, rc), hmem, rfl⟩))
  · intro p
    have hk2 : ∀ e ∈ l2, e.1 ≠ k := by
      rw [hsplit] at hnodup
      have hsub : (((k, v, rc) :: l2).map (fun e => e.1)).Sublist
          ((l1 ++ (k, v, rc) :: l2).map (fun e => e.1)) :=
        (List.sublist_append_right _ _).map _
      have hnd : (((k, v, rc) :: l2).map (fun e => e.1)).Nodup := hnodup.sublist hsub
      intro e he heq
      exact (List.nodup_cons.mp hnd).1 (List.mem_map.mpr ⟨e, he, heq⟩)
    have hops : (commit s tx trie parent_block block finalized nc).1.ops =
        (tx.ops ++ l1.map (fun e => DBOp.put s.changes_tries_column e.1 e.2.1) ++
          [DBOp.put s.changes_tries_column k v]) ++
        (l2.map (fun e => DBOp.put s.changes_tries_column e.1 e.2.1) ++ rest) := by
      rw [hshape, hsplit]
      simp [List.map_cons, List.append_assoc]
    have hno : ∀ op ∈ l2.map (fun e => DBOp.put s.changes_tries_column e.1 e.2.1) ++ rest,
        op.colKey ≠ (s.changes_tries_column, k) := by
      intro op hop
      rcases List.mem_append.mp hop with hL | hR
      · obtain ⟨e, he, hef⟩ := List.mem_map.mp hL
        rw [← hef]
        intro heq
        exact hk2 e he (congrArg Prod.snd heq)
      · obtain ⟨ck, cv, hef⟩ := hrest op hR
        rw [hef]
        intro heq
        exact hcol (congrArg Prod.fst heq)
    have hget : (s.db.applyTx (commit s tx trie parent_block block finalized nc).1.ops).get
        s.changes_tries_column k = some v := by
      rw [hops, applyTx_append,
        get_applyTx_not_touched s.changes_tries_column k _ _ hno, applyTx_append]
      exact get_applyOp_put _ _ _ _
    show Except.ok
        ((s.db.applyTx (commit s tx trie parent_block block finalized nc).1.ops).get
          s.changes_tries_column k) = Except.ok (some v)
    rw [hget]

theorem commit_stages_all_trie_nodes_witness :
    ((⟨[(5, [1, 2], 1), (6, [3], 1)]⟩ : MemoryDB).entries.map (fun e => e.1)).Nodup ∧
    sampleStorage.cache_column ≠ sampleStorage.changes_tries_column ∧
    (5, [1, 2], (1 : Int)) ∈ (⟨[(5, [1, 2], 1), (6, [3], 1)]⟩ : MemoryDB).entries ∧
    DBOp.put sampleStorage.changes_tries_column 5 [1, 2] ∈
      (commit sampleStorage ⟨[]⟩ ⟨[(5, [1, 2], 1), (6, [3], 1)]⟩ ⟨100, 0⟩ ⟨101, 1⟩ true
        (some none)).1.ops ∧
    DbChangesTrieStorage.get
      { sampleStorage with db := (sampleStorage.db.applyTx
          (commit sampleStorage ⟨[]⟩ ⟨[(5, [1, 2], 1), (6, [3], 1)]⟩ ⟨100, 0⟩ ⟨101, 1⟩ true
            (some none)).1.ops) }
      5 [] = Except.ok (some [1, 2]) := by
  have h := commit_stages_all_trie_nodes sampleStorage ⟨[]⟩
    ⟨[(5, [1, 2], 1), (6, [3], 1)]⟩ ⟨100, 0⟩ ⟨101, 1⟩ true (some none)
    (by decide) (by decide) 5 [1, 2] 1 (by decide)
  exact ⟨by decide, by decide, by decide, h.1, h.2 []⟩

end Substrate
